import Mathlib

/-!
Shallow embedding of the networked simulation core of the `mp` repository
(`src/replicate.rs`, `src/replicate/schedule.rs`, `src/prediction.rs`).

Machine integers: `NetworkTick` is a `u64` in the source.  Every subtraction
the source performs on it is either guarded (`self.tick < at` checked first)
or saturating (`saturating_sub`), so `Nat` with truncated subtraction models
it exactly on the guarded paths.
-/

namespace Mp

/-! ## Input history (`src/prediction.rs`, `ActionHistory<A>`)

`ActionHistory` is a `VecDeque<ActionState<A>>` plus a head tick.  We model
the deque as a list whose head is the deque's front (`push_front` = `cons`,
`pop_back` = drop the last element, `get k` = `List.get? k`). -/

structure ActionHistory (α : Type) where
  tick : Nat
  history : List α
  deriving Repr, DecidableEq

namespace ActionHistory

/-- The `add_for_tick` method: set the head tick, push the state to the front. -/
def add_for_tick (h : ActionHistory α) (tick : Nat) (actions : α) : ActionHistory α :=
  { tick := tick, history := actions :: h.history }

/-- The `at_tick` method: `None` when `self.tick < at`, else the element at offset
`self.tick - at` (guarded `u64` subtraction = `Nat` subtraction). -/
def at_tick (h : ActionHistory α) (at_ : Nat) : Option α :=
  if h.tick < at_ then none
  else h.history.get? (h.tick - at_)

/-- The `remove_old_history` method: pop from the back while the length exceeds
`1 + self.tick.saturating_sub(oldest)`; the survivors are exactly the first
`1 + (tick - oldest)` elements. -/
def remove_old_history (h : ActionHistory α) (oldest : Nat) : ActionHistory α :=
  { h with history := h.history.take (1 + (h.tick - oldest)) }

end ActionHistory

/-! ## Button states and input-edge reconstruction (`copy_input_for_tick`)

`leafwing_input_manager`'s `ButtonState`: `pressed` holds for
`JustPressed | Pressed`, `released` for `JustReleased | Released`. -/

inductive ButtonState where
  | justPressed
  | pressed
  | justReleased
  | released
  deriving Repr, DecidableEq

namespace ButtonState

def isPressed : ButtonState → Bool
  | justPressed => true
  | pressed => true
  | justReleased => false
  | released => false

def isReleased : ButtonState → Bool
  | justPressed => false
  | pressed => false
  | justReleased => true
  | released => true

end ButtonState

/-- Per-action effect of the two edge loops in `copy_input_for_tick`: the
first loop turns a currently pressed action whose previous entry was not
pressed into `JustPressed`; the second turns a currently released action whose
previous entry was not released into `JustReleased`; otherwise the raw state
is kept.  (The first loop keeps every touched action pressed, so the second
loop's released set is the raw released set, and the two loops are disjoint.) -/
def recordEdge (raw prev : ButtonState) : ButtonState :=
  if raw.isPressed && !prev.isPressed then ButtonState.justPressed
  else if raw.isReleased && !prev.isReleased then ButtonState.justReleased
  else raw

/-- An `ActionState` over action set `A`, modelled as the per-action button
state. -/
def ActionState (A : Type) := A → ButtonState

/-- The `Some(history)` arm of `copy_input_for_tick` for one controlled
entity: read the previous entry with `front().unwrap()` (`none` = panic on an
empty deque), synthesize edges against it, `add_for_tick` at the current
`NetworkTick`, then `remove_old_history` against `SyncedServerTick` when that
resource exists. -/
def copy_input_for_tick (raw : ActionState A) (tick : Nat)
    (h : ActionHistory (ActionState A)) (lastServerTick : Option Nat) :
    Option (ActionHistory (ActionState A)) :=
  match h.history with
  | [] => none
  | prev :: _ =>
    let recorded : ActionState A := fun a => recordEdge (raw a) (prev a)
    let h' := h.add_for_tick tick recorded
    some (match lastServerTick with
          | some t => h'.remove_old_history t
          | none => h')

/-! ## Network schedule (`src/replicate/schedule.rs`)

The schedule labels.  `NetworkScheduleOrder::default()` lists the labels a
phase pass runs; `NetworkResync` is a label that exists but is *not* part of
that list — `run_network_fixed` runs it as a separate schedule. -/

inductive NetworkLabel where
  | updateTick
  | resync
  | blueprint
  | preUpdate
  | update
  | postUpdate
  deriving Repr, DecidableEq

/-- The list `NetworkScheduleOrder::default()`: the labels of one phase pass, in
order, exactly as in the source. -/
def networkScheduleOrder : List NetworkLabel :=
  [NetworkLabel.updateTick, NetworkLabel.blueprint, NetworkLabel.preUpdate,
   NetworkLabel.update, NetworkLabel.postUpdate]

/-- The phase sequence the spec prescribes for a phase pass (§4.4), for
comparison with `networkScheduleOrder`. -/
def specPhaseOrder : List NetworkLabel :=
  [NetworkLabel.updateTick, NetworkLabel.resync, NetworkLabel.blueprint,
   NetworkLabel.preUpdate, NetworkLabel.update, NetworkLabel.postUpdate]

/-- The world state `run_network_fixed` manipulates: the `NetworkTick`
resource, presence of the `Resimulating` resource, and everything else
(entities, components, user resources) abstracted as `user : σ`. -/
structure RollWorld (σ : Type) where
  tick : Nat
  resimulating : Bool
  user : σ
  deriving Repr, DecidableEq

/-- Run one schedule label.  The only system in `NetworkUpdateTick` is
`increment_tick` (`tick.0 += 1`); every other label of the pass runs
user-registered systems, abstracted as `f`, which read the new tick and the
`Resimulating` flag but never write `NetworkTick` (no system registered in
those labels touches it). -/
def runLabel (f : NetworkLabel → Nat → Bool → σ → σ) :
    NetworkLabel → RollWorld σ → RollWorld σ
  | NetworkLabel.updateTick, w => { w with tick := w.tick + 1 }
  | l, w => { w with user := f l w.tick w.resimulating w.user }

/-- One phase pass: run `networkScheduleOrder` front to back. -/
def phasePass (f : NetworkLabel → Nat → Bool → σ → σ) (w : RollWorld σ) :
    RollWorld σ :=
  networkScheduleOrder.foldl (fun w l => runLabel f l w) w

/-- The resimulation loop `while *NetworkTick != current_tick { run all
labels }`, driven by fuel.  `run_network_fixed` only enters it with
`tick < target`, where `target - tick` passes reach the target exactly, so
the fuel `target - tick` supplied at the call site makes this the loop's
exact behaviour. -/
def resimLoopF (f : NetworkLabel → Nat → Bool → σ → σ) (target : Nat) :
    Nat → RollWorld σ → RollWorld σ
  | 0, w => w
  | fuel + 1, w =>
    if w.tick = target then w
    else resimLoopF f target fuel (phasePass f w)

/-- The rollback section of `run_network_fixed`, entered when
`SyncedServerTick` changed and `is_desynced` holds:
read `current_tick`; run the `NetworkResync` schedule (commit
`Replicated<T>` shadows, then `reset_to_server_tick`: despawn every
`Replicate`-marked entity and set `NetworkTick := SyncedServerTick`) —
its user-state effect is `g`, its tick effect is `tick := synced`; then, only
when `current_tick > synced`, set the tick back to `synced` again, despawn
`Replicate`-marked entities again (`d`), install `Resimulating`, loop to the
present, and remove `Resimulating`. -/
def rollbackSection (f : NetworkLabel → Nat → Bool → σ → σ) (g d : σ → σ)
    (synced : Nat) (w : RollWorld σ) : RollWorld σ :=
  let current := w.tick
  let w1 : RollWorld σ :=
    { tick := synced, resimulating := w.resimulating, user := g w.user }
  if synced < current then
    let w2 : RollWorld σ :=
      { tick := synced, resimulating := true, user := d w1.user }
    let w3 := resimLoopF f current (current - w2.tick) w2
    { w3 with resimulating := false }
  else w1

/-- The label trace of one `run_network_fixed` call past the accumulator:
when `SyncedServerTick` changed and `is_desynced` holds, the `NetworkResync`
schedule runs, followed (only when `synced < current`) by
`current - synced` full passes of the rollback loop; then the main
`while should_run` loop contributes `passes` further full passes. -/
def runNetworkFixedLabels (changedAndDesynced : Bool) (synced current : Nat)
    (passes : Nat) : List NetworkLabel :=
  (if changedAndDesynced then
    NetworkLabel.resync ::
      (if synced < current then
        (List.replicate (current - synced) networkScheduleOrder).flatten
      else [])
  else [])
  ++ (List.replicate passes networkScheduleOrder).flatten

/-! ## `NetworkPreUpdate` systems of `PredictionPlugin::build`
(`src/prediction.rs`) -/

inductive PredictionSystem where
  | copyInputForTick
  | sendClientInput
  | copyInputFromHistory
  | receiveClientInput
  deriving Repr, DecidableEq

/-- The systems `PredictionPlugin::build` schedules in `NetworkPreUpdate`
that actually run, as a function of the run conditions: the
`(copy_input_for_tick, send_client_input)` chain is gated on
`not(resimulating)` with `send_client_input` further gated on a connected
client; `copy_input_from_history` is gated on `resimulating`; the
`(receive_client_input, copy_input_from_history)` chain is gated on
`resource_exists::<RenetServer>`. -/
def networkPreUpdateSystems (resim isServer connected : Bool) :
    List PredictionSystem :=
  (if resim = false then
    PredictionSystem.copyInputForTick ::
      (if connected then [PredictionSystem.sendClientInput] else [])
  else [])
  ++ (if resim then [PredictionSystem.copyInputFromHistory] else [])
  ++ (if isServer then
        [PredictionSystem.receiveClientInput,
         PredictionSystem.copyInputFromHistory]
      else [])

/-- Per-entity effect of `copy_input_from_history`: look the history up at
the current tick; when present, insert that `ActionState` on the entity,
else leave the entity's current state alone (`continue`). -/
def copy_input_from_history (h : ActionHistory α) (tick : Nat)
    (current : Option α) : Option α :=
  match h.at_tick tick with
  | some actions => some actions
  | none => current

/-! ## Client-side snapshot application (`src/replicate.rs`)

`receive_updated_components` drains `ReplicationPacket`s and applies them.
We model the client world with one registered component type (registered via
`replicate_with`, so the registry has exactly one `ReplicationFunction`,
index `0`); component payloads decode to a `Nat`.  Component storage is an
association list keyed by local entity id (lookup takes the first hit, so
consing models an insert/overwrite). -/

structure UpdateComponent where
  replication_id : Nat
  data : Nat
  deriving Repr, DecidableEq

structure EntityUpdates where
  entity : Nat
  updates : List UpdateComponent
  removals : List Nat
  deriving Repr, DecidableEq

structure ReplicationPacket where
  tick : Nat
  updates : List EntityUpdates
  despawns : List Nat
  deriving Repr, DecidableEq

structure ClientWorld where
  nextEntity : Nat
  alive : List Nat
  shadow : List (Nat × Nat)
  comp : List (Nat × Nat)
  networkEntities : List (Nat × Nat)
  syncedTick : Option Nat
  deriving Repr, DecidableEq

namespace ClientWorld

/-- The `update` closure built by `replicate_with` (`ReplicationFunction::update`):
look the wire entity up in `NetworkEntities`; when mapped, insert the decoded
value as a `Replicated<T>` shadow *only if* `get_entity_mut` succeeds (the
local entity is still alive); when unmapped, spawn a fresh local entity
carrying the shadow and record the mapping. -/
def update (w : ClientWorld) (serverEntity : Nat) (data : Nat) : ClientWorld :=
  match w.networkEntities.lookup serverEntity with
  | some localEntity =>
    if localEntity ∈ w.alive then
      { w with shadow := (localEntity, data) :: w.shadow }
    else w
  | none =>
    let localEntity := w.nextEntity
    { w with
      nextEntity := localEntity + 1
      alive := localEntity :: w.alive
      shadow := (localEntity, data) :: w.shadow
      networkEntities := (serverEntity, localEntity) :: w.networkEntities }

/-- The `remove` closure built by `replicate_with`
(`ReplicationFunction::remove`): `world.entity_mut(entity).remove::<T>()`,
called with the *wire* entity id, without a `NetworkEntities` lookup.
`World::entity_mut` panics (`none`) when that entity does not exist locally. -/
def remove (w : ClientWorld) (entity : Nat) : Option ClientWorld :=
  if entity ∈ w.alive then
    some { w with comp := w.comp.filter (fun p => p.1 ≠ entity) }
  else none

/-- One despawn item of `receive_updated_components`: resolve the `NetId`
through `NetworkEntities`; when mapped, `World::despawn` the local entity
(which removes the entity and its components but *not* the map entry; on a
dead entity it is a warned no-op); an unmapped `NetId` is skipped. -/
def applyDespawn (w : ClientWorld) (netId : Nat) : ClientWorld :=
  match w.networkEntities.lookup netId with
  | some localEntity =>
    { w with
      alive := w.alive.erase localEntity
      shadow := w.shadow.filter (fun p => p.1 ≠ localEntity)
      comp := w.comp.filter (fun p => p.1 ≠ localEntity) }
  | none => w

/-- One removal item: `f[removal].remove` — a registry index other than the
single registered id `0` is a `Vec` out-of-bounds panic. -/
def applyRemoval (w : ClientWorld) (serverEntity : Nat) (rid : Nat) :
    Option ClientWorld :=
  if rid = 0 then w.remove serverEntity else none

/-- One update item: `f[update.replication_id].update`. -/
def applyUpdate (w : ClientWorld) (serverEntity : Nat) (u : UpdateComponent) :
    Option ClientWorld :=
  if u.replication_id = 0 then some (w.update serverEntity u.data) else none

/-- A `for` loop over items whose body can panic (`none`): stop at the first
panic, as the Rust loops do. -/
def foldOpt (f : ClientWorld → χ → Option ClientWorld) :
    ClientWorld → List χ → Option ClientWorld
  | w, [] => some w
  | w, x :: xs =>
    match f w x with
    | some w' => foldOpt f w' xs
    | none => none

/-- One `EntityUpdates` record: all removals, then all updates. -/
def applyEntityUpdates (w : ClientWorld) (eu : EntityUpdates) :
    Option ClientWorld :=
  match foldOpt (fun w rid => applyRemoval w eu.entity rid) w eu.removals with
  | some w' => foldOpt (fun w u => applyUpdate w eu.entity u) w' eu.updates
  | none => none

/-- One drained packet: unconditionally record its tick as
`SyncedServerTick`, apply every despawn, then every `EntityUpdates`. -/
def applyPacket (w : ClientWorld) (p : ReplicationPacket) :
    Option ClientWorld :=
  foldOpt applyEntityUpdates
    (p.despawns.foldl applyDespawn { w with syncedTick := some p.tick })
    p.updates

/-- The system `receive_updated_components`: drain the buffered packets in arrival
order, applying each (there is no tick comparison against the previously
applied snapshot). -/
def receive_updated_components (w : ClientWorld) (packets : List ReplicationPacket) :
    Option ClientWorld :=
  foldOpt applyPacket w packets

end ClientWorld

/-! Theorems.  Helper lemmas come first; each claim is settled by exactly one
named theorem (plus a witness or counterexample where called for). -/

/-- Helper: the per-action edge reconstruction, for a raw source that reports
only the steady states. -/
theorem recordEdge_spec (raw prev : ButtonState)
    (hraw : raw = ButtonState.pressed ∨ raw = ButtonState.released) :
    ((recordEdge raw prev = ButtonState.justPressed)
      ↔ (raw.isPressed = true ∧ prev.isPressed = false))
    ∧ ((recordEdge raw prev = ButtonState.justReleased)
      ↔ (raw.isReleased = true ∧ prev.isReleased = false)) := by
  rcases hraw with h | h <;> subst h <;> cases prev <;> decide

/-- C5: `at_tick` is total on the retained range — for every tick `t` with
`t ≤ head_tick` and offset `head_tick - t` within the deque, it returns
`some` of the element stored at that offset — and returns `none` for every
tick outside the range (in particular every `t > head_tick`), without
failing. -/
theorem at_tick_total_on_retained_range (H : ActionHistory α) (t : Nat) :
    (∀ _ : t ≤ H.tick, ∀ hlt : H.tick - t < H.history.length,
        H.at_tick t = some (H.history.get ⟨H.tick - t, hlt⟩))
    ∧ (H.tick < t ∨ H.history.length ≤ H.tick - t → H.at_tick t = none) := by
  constructor
  · intro hle hlt
    unfold ActionHistory.at_tick
    rw [if_neg (Nat.not_lt.mpr hle)]
    exact List.get?_eq_get hlt
  · intro hc
    unfold ActionHistory.at_tick
    rcases hc with hc | hc
    · rw [if_pos hc]
    · split
      · rfl
      · exact List.get?_eq_none.mpr hc

/-- Witness for C5: a history with head tick 5 and three entries answers
tick 4 with the element at offset 1 and answers tick 1 (outside the range)
with `none`. -/
theorem at_tick_total_on_retained_range_witness :
    (ActionHistory.mk 5 [10, 20, 30] : ActionHistory Nat).at_tick 4 = some 20
    ∧ (ActionHistory.mk 5 [10, 20, 30] : ActionHistory Nat).at_tick 1 = none := by
  constructor
  · have h := (at_tick_total_on_retained_range
        (ActionHistory.mk 5 [10, 20, 30] : ActionHistory Nat) 4).1
      (by decide) (by decide)
    rw [h]
    decide
  · exact (at_tick_total_on_retained_range
        (ActionHistory.mk 5 [10, 20, 30] : ActionHistory Nat) 1).2
      (Or.inr (by decide))

/-- Counterexample for C6: with head tick 5 and a single retained entry,
trimming against acknowledged tick 3 leaves 1 entry, not `5 - 3 + 1 = 3` —
the loop only ever pops, it cannot grow the deque to the stated size. -/
theorem remove_old_history_exact_count_counterexample :
    (3 : Nat) ≤ 5
    ∧ ((ActionHistory.mk 5 [(42 : Nat)]).remove_old_history 3).history.length
        ≠ 5 - 3 + 1 := by
  decide

/-- C6 amended: for an acknowledged tick `a ≤ h = head_tick`,
`remove_old_history a` leaves exactly `min (h - a + 1) |H|` entries — so
exactly `h - a + 1` whenever the deque held at least that many. -/
theorem remove_old_history_keeps_min (H : ActionHistory α) (oldest : Nat)
    (hle : oldest ≤ H.tick) :
    (H.remove_old_history oldest).history.length
      = min (H.tick - oldest + 1) H.history.length := by
  unfold ActionHistory.remove_old_history
  simp only [List.length_take]
  omega

/-- Witness for C6: head tick 5, four entries, acknowledged tick 3: exactly
`min (5 - 3 + 1) 4 = 3` entries remain. -/
theorem remove_old_history_keeps_min_witness :
    ((ActionHistory.mk 5 [(10 : Nat), 20, 30, 40]).remove_old_history 3).history.length
      = min (5 - 3 + 1) 4 :=
  remove_old_history_keeps_min (ActionHistory.mk 5 [10, 20, 30, 40]) 3 (by decide)

/-- C7: recording a new input for an entity with a non-empty history
succeeds and pushes an entry whose actions are `JustPressed` exactly when
pressed now but not pressed in the immediately preceding entry, and
`JustReleased` exactly when released now but not released in the preceding
entry; the entry is stored with head tick equal to the current
`NetworkTick`.  (The raw input source reports only the steady
pressed/released states.) -/
theorem copy_input_for_tick_edges {A : Type} (raw : ActionState A) (tick : Nat)
    (H : ActionHistory (ActionState A)) (lastServerTick : Option Nat)
    (prev : ActionState A) (rest : List (ActionState A))
    (hhist : H.history = prev :: rest)
    (hraw : ∀ a, raw a = ButtonState.pressed ∨ raw a = ButtonState.released) :
    ∃ H', copy_input_for_tick raw tick H lastServerTick = some H'
      ∧ H'.tick = tick
      ∧ ∃ entry, H'.history.head? = some entry
        ∧ ∀ a,
          ((entry a = ButtonState.justPressed)
            ↔ ((raw a).isPressed = true ∧ (prev a).isPressed = false))
          ∧ ((entry a = ButtonState.justReleased)
            ↔ ((raw a).isReleased = true ∧ (prev a).isReleased = false)) := by
  cases lastServerTick with
  | none =>
    have hcopy : copy_input_for_tick raw tick H none
        = some (H.add_for_tick tick (fun a => recordEdge (raw a) (prev a))) := by
      unfold copy_input_for_tick
      rw [hhist]
    exact ⟨_, hcopy, rfl, fun a => recordEdge (raw a) (prev a), rfl,
      fun a => recordEdge_spec (raw a) (prev a) (hraw a)⟩
  | some s =>
    have hcopy : copy_input_for_tick raw tick H (some s)
        = some ((H.add_for_tick tick
            (fun a => recordEdge (raw a) (prev a))).remove_old_history s) := by
      unfold copy_input_for_tick
      rw [hhist]
    refine ⟨_, hcopy, rfl, fun a => recordEdge (raw a) (prev a), ?_,
      fun a => recordEdge_spec (raw a) (prev a) (hraw a)⟩
    show (((fun a => recordEdge (raw a) (prev a)) :: H.history).take
        (1 + (tick - s))).head? = some _
    rw [Nat.add_comm 1 (tick - s), List.take_succ_cons]
    rfl

/-- Witness for C7: one action (`Unit`), raw state pressed, previous entry
released: the recorded entry is `JustPressed`, stored at head tick 7. -/
theorem copy_input_for_tick_edges_witness :
    ∃ H', copy_input_for_tick (fun _ : Unit => ButtonState.pressed) 7
        (ActionHistory.mk 6 [fun _ : Unit => ButtonState.released]) none = some H'
      ∧ H'.tick = 7
      ∧ ∃ entry, H'.history.head? = some entry
        ∧ ∀ _ : Unit,
          ((entry () = ButtonState.justPressed) ↔ (true = true ∧ false = false))
          ∧ ((entry () = ButtonState.justReleased) ↔ (false = true ∧ true = false)) :=
  copy_input_for_tick_edges (fun _ : Unit => ButtonState.pressed) 7
    (ActionHistory.mk 6 [fun _ : Unit => ButtonState.released]) none
    (fun _ : Unit => ButtonState.released) [] rfl (fun _ => Or.inl rfl)

/-- C4: with `Resimulating` present, `copy_input_for_tick` and
`send_client_input` are not among the `NetworkPreUpdate` systems that run
while `copy_input_from_history` is; with `Resimulating` absent on a client
(no `RenetServer`), `copy_input_from_history` does not run; and
`copy_input_from_history` installs the history entry recorded for the
current tick whenever one exists. -/
theorem resimulating_gates_input_systems :
    (∀ isServer connected : Bool,
        PredictionSystem.copyInputForTick
            ∉ networkPreUpdateSystems true isServer connected
        ∧ PredictionSystem.sendClientInput
            ∉ networkPreUpdateSystems true isServer connected
        ∧ PredictionSystem.copyInputFromHistory
            ∈ networkPreUpdateSystems true isServer connected)
    ∧ (∀ connected : Bool,
        PredictionSystem.copyInputFromHistory
          ∉ networkPreUpdateSystems false false connected)
    ∧ (∀ (α : Type) (h : ActionHistory α) (t : Nat) (c : Option α) (a : α),
        h.at_tick t = some a → copy_input_from_history h t c = some a) := by
  refine ⟨?_, ?_, ?_⟩
  · intro s c
    cases s <;> cases c <;> decide
  · intro c
    cases c <;> decide
  · intro α h t c a hat
    simp [copy_input_from_history, hat]

/-- Witness for C4: a history with head tick 5 and single entry `3` makes
`copy_input_from_history` install `3` at tick 5 over an empty current
state. -/
theorem resimulating_gates_input_systems_witness :
    copy_input_from_history (ActionHistory.mk 5 [(3 : Nat)]) 5 none = some 3 :=
  resimulating_gates_input_systems.2.2 Nat (ActionHistory.mk 5 [3]) 5 none 3
    (by decide)

/-- Helper: one phase pass increments `NetworkTick` by exactly one (the
`NetworkUpdateTick` label's `increment_tick`, once; no other label of the
pass writes the tick). -/
theorem phasePass_tick (f : NetworkLabel → Nat → Bool → σ → σ)
    (w : RollWorld σ) : (phasePass f w).tick = w.tick + 1 := by
  simp [phasePass, networkScheduleOrder, runLabel]

/-- Helper: the resimulation loop with fuel equal to the remaining distance
stops exactly at the target tick. -/
theorem resimLoopF_tick (f : NetworkLabel → Nat → Bool → σ → σ)
    (target : Nat) :
    ∀ (fuel : Nat) (w : RollWorld σ), w.tick + fuel = target →
      (resimLoopF f target fuel w).tick = target := by
  intro fuel
  induction fuel with
  | zero =>
    intro w h
    simpa [resimLoopF] using h
  | succ n ih =>
    intro w h
    rw [resimLoopF]
    split
    · assumption
    · apply ih
      rw [phasePass_tick]
      omega

/-- C1: when a rollback is triggered with the pre-rollback tick strictly
ahead of the synced server tick, the rollback block terminates with
`NetworkTick` equal to the pre-rollback current tick and the `Resimulating`
resource absent, and each iteration of its loop — one full phase pass —
increments `NetworkTick` by exactly one. -/
theorem rollback_restores_present_tick (f : NetworkLabel → Nat → Bool → σ → σ)
    (g d : σ → σ) (synced : Nat) (w : RollWorld σ) (hgt : synced < w.tick) :
    (rollbackSection f g d synced w).tick = w.tick
    ∧ (rollbackSection f g d synced w).resimulating = false
    ∧ ∀ w' : RollWorld σ, (phasePass f w').tick = w'.tick + 1 := by
  have hloop : (resimLoopF f w.tick (w.tick - synced)
      (⟨synced, true, d (g w.user)⟩ : RollWorld σ)).tick = w.tick := by
    apply resimLoopF_tick
    show synced + (w.tick - synced) = w.tick
    omega
  refine ⟨?_, ?_, fun w' => phasePass_tick f w'⟩
  · simp only [rollbackSection]
    rw [if_pos hgt]
    exact hloop
  · simp only [rollbackSection]
    rw [if_pos hgt]

/-- Witness for C1: synced server tick 2, present tick 5: the rollback block
ends at tick 5 with `Resimulating` absent, and a pass from tick 5 lands on 6. -/
theorem rollback_restores_present_tick_witness :
    (rollbackSection (fun _ _ _ (u : Nat) => u + 1) id id 2 ⟨5, false, 0⟩).tick = 5
    ∧ (rollbackSection (fun _ _ _ (u : Nat) => u + 1) id id 2
        ⟨5, false, 0⟩).resimulating = false
    ∧ (phasePass (fun _ _ _ (u : Nat) => u + 1) ⟨5, false, 0⟩).tick = 5 + 1 := by
  have h := rollback_restores_present_tick (fun _ _ _ (u : Nat) => u + 1) id id 2
    ⟨5, false, 0⟩ (by decide)
  exact ⟨h.1, h.2.1, h.2.2 ⟨5, false, 0⟩⟩

/-- Counterexample for C2: the per-pass schedule order differs from the
spec's six-phase sequence — its second label is `Blueprint`, and `Resync` is
not in the per-pass order at all. -/
theorem resync_not_second_phase_counterexample :
    networkScheduleOrder ≠ specPhaseOrder
    ∧ networkScheduleOrder.get? 1 = some NetworkLabel.blueprint
    ∧ NetworkLabel.resync ∉ networkScheduleOrder := by
  decide

/-- Helper: `NetworkResync` never appears among any number of phase passes. -/
theorem resync_not_mem_passes (p : Nat) :
    NetworkLabel.resync ∉ (List.replicate p networkScheduleOrder).flatten := by
  intro hmem
  rcases List.mem_flatten.mp hmem with ⟨l, hl, hml⟩
  rcases List.mem_replicate.mp hl with ⟨-, rfl⟩
  exact absurd hml (by decide)

/-- C2 amended: every phase pass executes exactly `UpdateTick`, `Blueprint`,
`PreUpdate`, `Update`, `PostUpdate` in that order (server and client alike);
the `NetworkResync` schedule is not a per-pass phase — across one
`run_network_fixed` call it runs exactly when a snapshot changed
`SyncedServerTick` and the desync predicate holds. -/
theorem resync_runs_only_on_desync :
    ∀ (b : Bool) (synced current passes : Nat),
      (NetworkLabel.resync ∈ runNetworkFixedLabels b synced current passes
        ↔ b = true)
      ∧ runNetworkFixedLabels false synced current passes
          = (List.replicate passes networkScheduleOrder).flatten
      ∧ networkScheduleOrder
          = [NetworkLabel.updateTick, NetworkLabel.blueprint,
             NetworkLabel.preUpdate, NetworkLabel.update,
             NetworkLabel.postUpdate] := by
  intro b s c p
  refine ⟨?_, by simp [runNetworkFixedLabels], rfl⟩
  cases b with
  | false =>
    have hb : runNetworkFixedLabels false s c p
        = (List.replicate p networkScheduleOrder).flatten := by
      simp [runNetworkFixedLabels]
    rw [hb]
    simp [resync_not_mem_passes p]
  | true =>
    simp [runNetworkFixedLabels]

/-- Counterexample for C9: with present target 3 strictly below synced
server tick 5, no assertion fires — the section returns normally and the
state has silently changed (tick moved forward to 5, the `NetworkResync`
schedule's effect `g` applied). -/
theorem unreachable_target_no_assertion_counterexample :
    rollbackSection (fun _ _ _ (u : Nat) => u) Nat.succ id 5 ⟨3, false, 0⟩
      = ⟨5, false, 1⟩
    ∧ (⟨5, false, 1⟩ : RollWorld Nat) ≠ ⟨3, false, 0⟩ := by
  decide

/-- C9 amended: when the present target is strictly below
`SyncedServerTick`, no assertion fires; the `NetworkResync` schedule still
runs — `NetworkTick` is set forward to the synced tick and the schedule's
user-state effect (shadow commit plus `Replicate` despawns) is applied — and
the resimulation block is skipped. -/
theorem unreachable_target_skips_rollback
    (f : NetworkLabel → Nat → Bool → σ → σ) (g d : σ → σ) (synced : Nat)
    (w : RollWorld σ) (hlt : w.tick < synced) :
    rollbackSection f g d synced w
      = { tick := synced, resimulating := w.resimulating, user := g w.user } := by
  simp only [rollbackSection]
  rw [if_neg (by omega)]

/-- Witness for C9's amended statement: present tick 4, synced tick 9. -/
theorem unreachable_target_skips_rollback_witness :
    rollbackSection (fun _ _ _ (u : Nat) => u) Nat.succ id 9 ⟨4, false, 10⟩
      = ⟨9, false, 11⟩ :=
  unreachable_target_skips_rollback (fun _ _ _ (u : Nat) => u) Nat.succ id 9
    ⟨4, false, 10⟩ (by decide)

namespace ClientWorld

/-- Helper: a failing-fold invariant — if every step preserves `P`, so does
the whole fold. -/
theorem foldOpt_inv {χ : Type} (f : ClientWorld → χ → Option ClientWorld)
    (P : ClientWorld → Prop)
    (hf : ∀ w x w', f w x = some w' → P w → P w') :
    ∀ (l : List χ) (w w' : ClientWorld),
      foldOpt f w l = some w' → P w → P w' := by
  intro l
  induction l with
  | nil =>
    intro w w' h hw
    unfold foldOpt at h
    injection h with h
    exact h ▸ hw
  | cons x xs ih =>
    intro w w' h hw
    unfold foldOpt at h
    cases hfx : f w x with
    | none => rw [hfx] at h; exact Option.noConfusion h
    | some w2 => rw [hfx] at h; exact ih w2 w' h (hf w x w2 hfx hw)

/-- Helper: `ReplicationFunction::update` never writes `SyncedServerTick`. -/
theorem update_syncedTick (w : ClientWorld) (e data : Nat) :
    (update w e data).syncedTick = w.syncedTick := by
  unfold update
  split
  · split <;> rfl
  · rfl

/-- Helper: `ReplicationFunction::update` only ever conses onto
`NetworkEntities`, so existing lookups survive. -/
theorem update_preserves_lookup (w : ClientWorld) (e data n l : Nat)
    (h : w.networkEntities.lookup n = some l) :
    (update w e data).networkEntities.lookup n = some l := by
  unfold update
  cases he : w.networkEntities.lookup e with
  | some le =>
    dsimp only
    split <;> exact h
  | none =>
    dsimp only
    have hne : n ≠ e := by
      intro heq
      rw [heq, he] at h
      exact Option.noConfusion h
    simp only [List.lookup, beq_eq_false_iff_ne.mpr hne]
    exact h

/-- Helper: `ReplicationFunction::remove` writes neither `SyncedServerTick`
nor `NetworkEntities`. -/
theorem remove_frame (w : ClientWorld) (e : Nat) (w' : ClientWorld)
    (h : remove w e = some w') :
    w'.syncedTick = w.syncedTick ∧ w'.networkEntities = w.networkEntities := by
  unfold remove at h
  split at h
  · injection h with h
    exact h ▸ ⟨rfl, rfl⟩
  · exact Option.noConfusion h

/-- Helper: one despawn item writes neither `SyncedServerTick` nor
`NetworkEntities` (the map entry is kept even when the entity dies). -/
theorem applyDespawn_frame (w : ClientWorld) (n : Nat) :
    (applyDespawn w n).syncedTick = w.syncedTick
    ∧ (applyDespawn w n).networkEntities = w.networkEntities := by
  unfold applyDespawn
  split <;> exact ⟨rfl, rfl⟩

/-- Helper: the despawn loop writes neither `SyncedServerTick` nor
`NetworkEntities`. -/
theorem foldl_applyDespawn_frame (l : List Nat) :
    ∀ w : ClientWorld,
      (l.foldl applyDespawn w).syncedTick = w.syncedTick
      ∧ (l.foldl applyDespawn w).networkEntities = w.networkEntities := by
  induction l with
  | nil => intro w; exact ⟨rfl, rfl⟩
  | cons n ns ih =>
    intro w
    rw [List.foldl_cons]
    exact ⟨(ih _).1.trans (applyDespawn_frame w n).1,
           (ih _).2.trans (applyDespawn_frame w n).2⟩

/-- Helper: one removal item keeps `SyncedServerTick` and `NetworkEntities`. -/
theorem applyRemoval_frame (w : ClientWorld) (e rid : Nat) (w' : ClientWorld)
    (h : applyRemoval w e rid = some w') :
    w'.syncedTick = w.syncedTick ∧ w'.networkEntities = w.networkEntities := by
  unfold applyRemoval at h
  split at h
  · exact remove_frame w e w' h
  · exact Option.noConfusion h

/-- Helper: one update item keeps `SyncedServerTick` and preserves existing
`NetworkEntities` lookups. -/
theorem applyUpdate_frame (w : ClientWorld) (e : Nat) (u : UpdateComponent)
    (w' : ClientWorld) (h : applyUpdate w e u = some w') :
    w'.syncedTick = w.syncedTick
    ∧ ∀ n l : Nat, w.networkEntities.lookup n = some l →
        w'.networkEntities.lookup n = some l := by
  unfold applyUpdate at h
  split at h
  · injection h with h
    subst h
    exact ⟨update_syncedTick w e u.data,
           fun n l hl => update_preserves_lookup w e u.data n l hl⟩
  · exact Option.noConfusion h

/-- Helper: one `EntityUpdates` record keeps `SyncedServerTick` and
preserves existing `NetworkEntities` lookups. -/
theorem applyEntityUpdates_frame (w : ClientWorld) (eu : EntityUpdates)
    (w' : ClientWorld) (h : applyEntityUpdates w eu = some w') :
    w'.syncedTick = w.syncedTick
    ∧ ∀ n l : Nat, w.networkEntities.lookup n = some l →
        w'.networkEntities.lookup n = some l := by
  unfold applyEntityUpdates at h
  cases hr : foldOpt (fun w rid => applyRemoval w eu.entity rid) w eu.removals with
  | none => rw [hr] at h; exact Option.noConfusion h
  | some w1 =>
    rw [hr] at h
    have h1 : w1.syncedTick = w.syncedTick
        ∧ w1.networkEntities = w.networkEntities :=
      foldOpt_inv _ (fun u => u.syncedTick = w.syncedTick
          ∧ u.networkEntities = w.networkEntities)
        (fun a x b hab ha =>
          ⟨(applyRemoval_frame a eu.entity x b hab).1.trans ha.1,
           (applyRemoval_frame a eu.entity x b hab).2.trans ha.2⟩)
        eu.removals w w1 hr ⟨rfl, rfl⟩
    have h2 : w'.syncedTick = w1.syncedTick
        ∧ ∀ n l : Nat, w1.networkEntities.lookup n = some l →
            w'.networkEntities.lookup n = some l :=
      foldOpt_inv _ (fun u => u.syncedTick = w1.syncedTick
          ∧ ∀ n l : Nat, w1.networkEntities.lookup n = some l →
              u.networkEntities.lookup n = some l)
        (fun a x b hab ha =>
          ⟨(applyUpdate_frame a eu.entity x b hab).1.trans ha.1,
           fun n l hl =>
             (applyUpdate_frame a eu.entity x b hab).2 n l (ha.2 n l hl)⟩)
        eu.updates w1 w' h ⟨rfl, fun _ _ hl => hl⟩
    refine ⟨h2.1.trans h1.1, fun n l hl => h2.2 n l ?_⟩
    rw [h1.2]
    exact hl

/-- Helper: applying one drained packet sets `SyncedServerTick` to that
packet's tick, and preserves existing `NetworkEntities` lookups. -/
theorem applyPacket_frame (w : ClientWorld) (p : ReplicationPacket)
    (w' : ClientWorld) (h : applyPacket w p = some w') :
    w'.syncedTick = some p.tick
    ∧ ∀ n l : Nat, w.networkEntities.lookup n = some l →
        w'.networkEntities.lookup n = some l := by
  unfold applyPacket at h
  have hbase := foldl_applyDespawn_frame p.despawns
    { w with syncedTick := some p.tick }
  have hmain :=
    foldOpt_inv applyEntityUpdates
      (fun u => u.syncedTick = some p.tick
        ∧ ∀ n l : Nat, w.networkEntities.lookup n = some l →
            u.networkEntities.lookup n = some l)
      (fun a x b hab ha =>
        ⟨(applyEntityUpdates_frame a x b hab).1.trans ha.1,
         fun n l hl => (applyEntityUpdates_frame a x b hab).2 n l (ha.2 n l hl)⟩)
      p.updates _ w' h ⟨hbase.1, fun n l hl => ?_⟩
  · exact hmain
  · rw [hbase.2]
    exact hl

end ClientWorld

/-- Counterexample for C3: after a snapshot with tick 5, a drained snapshot
with tick 3 is *not* dropped — its update spawns an entity and installs a
shadow, and `SyncedServerTick` is moved back to 3. -/
theorem stale_snapshot_applied_counterexample :
    ClientWorld.receive_updated_components ⟨0, [], [], [], [], none⟩
        [⟨5, [], []⟩, ⟨3, [⟨0, [⟨0, 42⟩], []⟩], []⟩]
      = some ⟨1, [0], [(0, 42)], [], [(0, 0)], some 3⟩
    ∧ ClientWorld.receive_updated_components ⟨0, [], [], [], [], none⟩
        [⟨5, [], []⟩]
      = some ⟨0, [], [], [], [], some 5⟩
    ∧ some (⟨1, [0], [(0, 42)], [], [(0, 0)], some 3⟩ : ClientWorld)
      ≠ some (⟨0, [], [], [], [], some 5⟩ : ClientWorld) := by
  decide

/-- C3 amended: the receive loop applies every drained snapshot in arrival
order with no tick-based drop; after a successful drain of a non-empty
sequence, `SyncedServerTick` equals the tick of the *last* drained snapshot
(whether or not the ticks were increasing). -/
theorem receive_tracks_last_drained_tick (w : ClientWorld)
    (ps : List ReplicationPacket) (w' : ClientWorld)
    (hrec : ClientWorld.receive_updated_components w ps = some w')
    (hne : ps ≠ []) :
    w'.syncedTick = some ((ps.getLast hne)).tick := by
  induction ps generalizing w with
  | nil => exact absurd rfl hne
  | cons p rest ih =>
    unfold ClientWorld.receive_updated_components ClientWorld.foldOpt at hrec
    cases hp : ClientWorld.applyPacket w p with
    | none => rw [hp] at hrec; exact Option.noConfusion hrec
    | some w1 =>
      rw [hp] at hrec
      cases rest with
      | nil =>
        unfold ClientWorld.foldOpt at hrec
        injection hrec with hrec
        rw [← hrec]
        exact (ClientWorld.applyPacket_frame w p w1 hp).1
      | cons q qs =>
        rw [List.getLast_cons (by simp)]
        exact ih w1 hrec (by simp)

/-- Witness for C3's amended statement: draining ticks 5 then 3 leaves
`SyncedServerTick = 3`. -/
theorem receive_tracks_last_drained_tick_witness :
    (⟨1, [0], [(0, 42)], [], [(0, 0)], some 3⟩ : ClientWorld).syncedTick
      = some 3 :=
  receive_tracks_last_drained_tick ⟨0, [], [], [], [], none⟩
    [⟨5, [], []⟩, ⟨3, [⟨0, [⟨0, 42⟩], []⟩], []⟩]
    ⟨1, [0], [(0, 42)], [], [(0, 0)], some 3⟩ (by decide) (by decide)

/-- C8 (against the code): a despawn naming an unknown `NetId` is indeed
ignored, but a *removal* naming an unknown `NetId` is not — the removal path
hands the wire entity id to `ReplicationFunction::remove` without a
`NetworkEntities` lookup, and `World::entity_mut` fails on it, so processing
the snapshot panics instead of completing unchanged. -/
theorem unknown_netid_removal_panics :
    ClientWorld.applyDespawn ⟨0, [], [], [], [], none⟩ 7
      = ⟨0, [], [], [], [], none⟩
    ∧ ClientWorld.receive_updated_components ⟨0, [], [], [], [], none⟩
        [⟨1, [⟨7, [], [0]⟩], []⟩] = none := by
  decide

/-- C10: a `NetworkEntities` entry whose local entity has been despawned
makes any later update citing that `NetId` a strict no-op (no spawn, no
shadow, map unchanged), and applying a snapshot never removes or changes an
existing map entry. -/
theorem dead_mapping_blocks_updates :
    (∀ (w : ClientWorld) (e data le : Nat),
        w.networkEntities.lookup e = some le → le ∉ w.alive →
        ClientWorld.update w e data = w)
    ∧ (∀ (w : ClientWorld) (p : ReplicationPacket) (w' : ClientWorld),
        ClientWorld.applyPacket w p = some w' →
        ∀ (n l : Nat), w.networkEntities.lookup n = some l →
          w'.networkEntities.lookup n = some l) := by
  constructor
  · intro w e data le hl ha
    unfold ClientWorld.update
    rw [hl]
    exact if_neg ha
  · intro w p w' h n l hl
    exact (ClientWorld.applyPacket_frame w p w' h).2 n l hl

/-- Witness for C10: `NetId 3` maps to dead local entity 9; an update for it
changes nothing, and a packet's despawn of an unknown `NetId` leaves the
mapping for 3 intact. -/
theorem dead_mapping_blocks_updates_witness :
    ClientWorld.update ⟨10, [], [], [], [(3, 9)], none⟩ 3 42
      = ⟨10, [], [], [], [(3, 9)], none⟩
    ∧ (⟨10, [], [], [], [(3, 9)], some 2⟩ : ClientWorld).networkEntities.lookup 3
      = some 9 := by
  constructor
  · exact dead_mapping_blocks_updates.1 ⟨10, [], [], [], [(3, 9)], none⟩ 3 42 9
      (by decide) (by decide)
  · exact dead_mapping_blocks_updates.2 ⟨10, [], [], [], [(3, 9)], none⟩
      ⟨2, [], [5]⟩ ⟨10, [], [], [], [(3, 9)], some 2⟩ (by decide) 3 9 (by decide)

end Mp
